import Mathlib

/-!
Shallow embedding of the two core components of the repository
(`src/imgui/src/render/renderer.rs` and `src/imgui/src/ime.rs`):

* the generic texture registry `Textures<T>` with its opaque `TextureId`
  handles (a `u64` newtype over a `HashMap<u64, T>` plus a monotonic
  `next: u64` counter), and
* the IME callback dispatch shim (`ImeDataContext`, the dummy backend, and
  the `set_ime_data` trampoline with its `catch_unwind` fault containment).

Modelling conventions:
* `u64` values are `Nat`; where the source performs `u64` arithmetic that
  can overflow (`self.next += 1`), the model reduces modulo `2 ^ 64`
  (release-mode wrapping semantics).
* `HashMap<u64, T>` is modelled extensionally as `Nat → Option T`; its
  `insert` returns the previous binding exactly as `HashMap::insert` does.
* `f32` fields of `PlatformImeData` are carried as opaque bit patterns
  (`Nat`), which is faithful because the shim only copies them and never
  performs floating-point arithmetic.
* a Rust panic is modelled by the `PanicOr.panicked` outcome; `catch_unwind`
  becomes a `match` on that outcome, and `process::abort` preceded by
  `eprintln!` becomes the `TrampolineOutcome.abort` result carrying the
  diagnostic line written to standard error.
-/

set_option maxRecDepth 4096

/-- Embedding of `TextureId` (`renderer.rs` line 6): a newtype over `u64`.
The `u64` value is carried as a `Nat`. -/
structure TextureId where
  val : Nat
deriving DecidableEq, Repr

/-- Embedding of `TextureId::new` (`renderer.rs` lines 11-13). -/
def TextureId.new (id : Nat) : TextureId :=
  ⟨id⟩

/-- Embedding of `TextureId::id` (`renderer.rs` lines 17-19). -/
def TextureId.id (t : TextureId) : Nat :=
  t.val

/-- Embedding of `impl From<u64> for TextureId` (`renderer.rs` lines 22-27). -/
def TextureId.fromU64 (id : Nat) : TextureId :=
  ⟨id⟩

/-- Extensional model of `std::collections::HashMap::insert`: bind key `k`
to `v`, leaving every other key unchanged. -/
def mapInsert {T : Type} (m : Nat → Option T) (k : Nat) (v : T) : Nat → Option T :=
  fun k2 => if k2 = k then some v else m k2

/-- Extensional model of `std::collections::HashMap::remove`: unbind key
`k`, leaving every other key unchanged. -/
def mapRemove {T : Type} (m : Nat → Option T) (k : Nat) : Nat → Option T :=
  fun k2 => if k2 = k then none else m k2

/-- Embedding of `Textures<T>` (`renderer.rs` lines 58-61): the handle
table (`HashMap<u64, T>` as `Nat → Option T`) plus the `next: u64`
counter. -/
structure Textures (T : Type) where
  textures : Nat → Option T
  next : Nat

/-- Embedding of `Textures::new` (`renderer.rs` lines 78-83): empty table,
counter at zero. -/
def Textures.new {T : Type} : Textures T :=
  { textures := fun _ => none, next := 0 }

/-- Embedding of `Textures::insert` (`renderer.rs` lines 85-90): bind the
current counter value to the new resource, post-increment the counter
(`u64` wrapping modelled by `% 2 ^ 64`), and return the handle together
with the updated registry. -/
def Textures.insert {T : Type} (t : Textures T) (texture : T) : TextureId × Textures T :=
  let id := t.next
  (TextureId.fromU64 id,
    { textures := mapInsert t.textures id texture
      next := (t.next + 1) % 2 ^ 64 })

/-- Embedding of `Textures::replace` (`renderer.rs` lines 92-94): a bare
`HashMap::insert` at the given handle; returns the previous binding and
does not touch the counter. -/
def Textures.replace {T : Type} (t : Textures T) (id : TextureId) (texture : T) :
    Option T × Textures T :=
  (t.textures id.val, { t with textures := mapInsert t.textures id.val texture })

/-- Embedding of `Textures::remove` (`renderer.rs` lines 96-98): a bare
`HashMap::remove`; returns the removed binding, if any. -/
def Textures.remove {T : Type} (t : Textures T) (id : TextureId) :
    Option T × Textures T :=
  (t.textures id.val, { t with textures := mapRemove t.textures id.val })

/-- Embedding of `Textures::get` (`renderer.rs` lines 100-102): a bare
`HashMap::get`. -/
def Textures.get {T : Type} (t : Textures T) (id : TextureId) : Option T :=
  t.textures id.val

/-- Embedding of `Textures::get_mut` (`renderer.rs` lines 104-106): the
lookup performed by `HashMap::get_mut`; as a lookup it coincides with
`get`, differing in Rust only in the mutability of the returned borrow. -/
def Textures.get_mut {T : Type} (t : Textures T) (id : TextureId) : Option T :=
  t.textures id.val

/-- One registry operation, for quantifying over call sequences. Handles
passed to `replace`, `remove`, `get` and `get_mut` are arbitrary `u64`
values (the caller may forge any `TextureId`). -/
inductive TexOp (T : Type) where
  | insert (x : T)
  | replace (h : Nat) (x : T)
  | remove (h : Nat)
  | get (h : Nat)
  | get_mut (h : Nat)
deriving Repr

/-- State transition of a single registry operation. `get` and `get_mut`
do not change the registry. -/
def applyOp {T : Type} (t : Textures T) : TexOp T → Textures T
  | .insert x => (t.insert x).2
  | .replace h x => (t.replace (TextureId.new h) x).2
  | .remove h => (t.remove (TextureId.new h)).2
  | .get _ => t
  | .get_mut _ => t

/-- Run a sequence of registry operations from a given state. -/
def applyOps {T : Type} (t : Textures T) (ops : List (TexOp T)) : Textures T :=
  ops.foldl applyOp t

/-- Number of `insert` operations in a sequence. -/
def countInserts {T : Type} : List (TexOp T) → Nat
  | [] => 0
  | .insert _ :: rest => countInserts rest + 1
  | _ :: rest => countInserts rest

/-- A call sequence is safe from state `t` when every `insert` happens
while the `u64` counter can still be incremented without wrapping and
every `replace` targets a handle below the current counter (i.e. one the
counter has already issued). -/
def safeOps {T : Type} (t : Textures T) : List (TexOp T) → Bool
  | [] => true
  | op :: rest =>
    (match op with
      | .insert _ => decide (t.next + 1 < 2 ^ 64)
      | .replace h _ => decide (h < t.next)
      | _ => true) && safeOps (applyOp t op) rest

/-- A call sequence avoids handle `k` when none of its `remove` or
`replace` operations targets `k`. -/
def avoidsHandle {T : Type} (k : Nat) : List (TexOp T) → Bool
  | [] => true
  | op :: rest =>
    (match op with
      | .replace h _ => decide (h ≠ k)
      | .remove h => decide (h ≠ k)
      | _ => true) && avoidsHandle k rest

/-- Iterated `insert` of the same resource, used to reason about long
insert-only runs. -/
def iterInsert {T : Type} : Nat → T → Textures T → Textures T
  | 0, _, t => t
  | n + 1, x, t => iterInsert n x (t.insert x).2

/-- Handles returned by `n` successive `insert` calls starting from state
`t`, in issuance order. -/
def insertHandlesAux {T : Type} (x : T) : Nat → Textures T → List Nat
  | 0, _ => []
  | n + 1, t => (t.insert x).1.id :: insertHandlesAux x n (t.insert x).2

/-- Handles returned by `n` successive `insert` calls on a registry
created by `Textures::new`. -/
def insertHandles (n : Nat) : List Nat :=
  insertHandlesAux () n Textures.new

/-- Demo registry state after `insert(10)` on a fresh registry. -/
def demoS1 : Textures Nat :=
  ((Textures.new).insert 10).2

/-- Demo registry state after `insert(10); insert(20)`. -/
def demoS2 : Textures Nat :=
  (demoS1.insert 20).2

/-- Demo registry state after `insert(10); insert(20); remove(0)`. -/
def demoS3 : Textures Nat :=
  (demoS2.remove (TextureId.new 0)).2

/-- Modelled from the spec: the `crate::Viewport` struct is not among the
provided sources (the shim only passes a reference to it through to the
handler), so it is carried as an opaque value. -/
structure Viewport where
  raw : Nat
deriving DecidableEq, Repr

/-- Embedding of `PlatformImeData` (`ime.rs` lines 14-18). The `f32`
fields (`input_pos`, `input_line_height`) are carried as opaque 32-bit
patterns, since the shim only copies them. -/
structure PlatformImeData where
  want_visible : Bool
  input_pos : Nat × Nat
  input_line_height : Nat
deriving DecidableEq, Repr

/-- Outcome of running a piece of user code that may panic: either a
normal return or an unwind (`a Rust panic`). -/
inductive PanicOr (α : Type) where
  | ok (a : α)
  | panicked
deriving Repr

/-- Observable event emitted by an instrumented handler: which handler
identity ran, and with which IME data. -/
abbrev ImeEvent : Type := Nat × PlatformImeData

/-- Model of a boxed `dyn ImeDataBackend` (`ime.rs` lines 6-9): the
handler's `set_ime_data` receives the viewport and the IME data and
either returns normally — yielding the possibly mutated viewport and the
trace of its observable invocations — or panics. -/
abbrev ImeBackend : Type :=
  Viewport → PlatformImeData → PanicOr (Viewport × List ImeEvent)

/-- Embedding of `ImeDataContext` (`ime.rs` lines 20-22): exclusive
ownership of one boxed handler. -/
structure ImeDataContext where
  backend : ImeBackend

/-- Embedding of `ImeDataContext::new` (`ime.rs` lines 26-30). -/
def ImeDataContext.new (backend : ImeBackend) : ImeDataContext :=
  ⟨backend⟩

/-- Embedding of the `ImeDataBackend` impl of `DummyImeDataContext`
(`ime.rs` lines 41-45): an empty body — the viewport is untouched and
nothing observable happens. -/
def DummyImeDataContext.set_ime_data : ImeBackend :=
  fun viewport _ => PanicOr.ok (viewport, [])

/-- Embedding of `ImeDataContext::dummy` (`ime.rs` lines 32-36). -/
def ImeDataContext.dummy : ImeDataContext :=
  ⟨DummyImeDataContext.set_ime_data⟩

/-- Diagnostic line the trampoline writes to standard error before
aborting (`ime.rs` line 70). -/
def imePanicMsg : String :=
  "IME data setter panicked"

/-- Result of one invocation of the native-callback trampoline: either a
normal return to the native caller (with the resulting viewport and the
handler's event trace), or `eprintln!` of a diagnostic followed by
`process::abort()`. -/
inductive TrampolineOutcome where
  | normal (viewport : Viewport) (events : List ImeEvent)
  | abort (stderrLine : String)
deriving Repr

/-- Embedding of the `extern "C"` trampoline `set_ime_data`
(`ime.rs` lines 55-73). The installed `ImeDataContext` argument models
the content of the process-wide `Platform_ImeUserData` slot the function
reads; `data` models the raw `*mut ImGuiPlatformImeData` argument
(`none` for a null pointer, on which the source's `.unwrap()` panics
inside `catch_unwind`). Everything runs under `catch_unwind`: a panic is
converted into the diagnostic-plus-`process::abort()` outcome and never
propagates to the native caller. -/
def set_ime_data (slot : ImeDataContext) (viewport : Viewport)
    (data : Option PlatformImeData) : TrampolineOutcome :=
  let result : PanicOr (Viewport × List ImeEvent) :=
    match data with
    | none => PanicOr.panicked
    | some d => slot.backend viewport d
  match result with
  | PanicOr.ok (v, events) => TrampolineOutcome.normal v events
  | PanicOr.panicked => TrampolineOutcome.abort imePanicMsg

/-- Modelled from the spec: installation of a dispatch context into the
native library's single process-wide `Platform_ImeUserData` slot. The
installation code itself is not among the provided sources (only the
trampoline that reads the slot is); per the spec, re-installation
"simply replaces the slot's association". -/
def installContext (c : ImeDataContext) (_previous : ImeDataContext) : ImeDataContext :=
  c

/-- Instrumented handler with identity `i`: never panics, leaves the
viewport unchanged, and records that it was invoked with the given
data. -/
def taggedBackend (i : Nat) : ImeBackend :=
  fun viewport d => PanicOr.ok (viewport, [(i, d)])

/-- Handler that always panics, used to exercise the fault-containment
path. -/
def panickingBackend : ImeBackend :=
  fun _ _ => PanicOr.panicked

/-- Concrete viewport value used by witnesses. -/
def demoViewport : Viewport :=
  ⟨0⟩

/-- Concrete IME data value used by witnesses. -/
def demoImeData : PlatformImeData :=
  { want_visible := true, input_pos := (3, 4), input_line_height := 5 }

/-- Claim C4: `replace(h, y)` returns the previous binding of `h`
(`some old` when `h` was bound, `none` when unbound — both cases are the
single equation with `get h` on the pre-state), afterwards `get h`
returns `y`, and the next-handle counter is unchanged. -/
theorem c4_replace_semantics {T : Type} (t : Textures T) (h : TextureId) (y : T) :
    (t.replace h y).1 = t.get h
      ∧ (t.replace h y).2.get h = some y
      ∧ (t.replace h y).2.next = t.next := by
  refine ⟨rfl, ?_, rfl⟩
  simp [Textures.replace, Textures.get, mapInsert]

/-- Claim C5: on an unbound handle, `get`, `get_mut` and `remove` all
return the explicit "not found" result (`none`), and on any registry a
second immediate `remove` of the same handle returns `none`. -/
theorem c5_absent_handles {T : Type} (t t2 : Textures T) (h : TextureId)
    (hu : t.textures h.id = none) :
    t.get h = none
      ∧ t.get_mut h = none
      ∧ (t.remove h).1 = none
      ∧ ((t2.remove h).2.remove h).1 = none := by
  refine ⟨hu, hu, hu, ?_⟩
  simp [Textures.remove, mapRemove]

/-- Claim C5 witness: handle 5 was never inserted into a fresh registry,
so `get`, `get_mut` and `remove` all report "not found" there, and a
double `remove(5)` on the one-element demo registry reports "not found"
the second time. -/
theorem c5_absent_handles_witness :
    (Textures.new (T := Nat)).get (TextureId.new 5) = none
      ∧ (Textures.new (T := Nat)).get_mut (TextureId.new 5) = none
      ∧ ((Textures.new (T := Nat)).remove (TextureId.new 5)).1 = none
      ∧ ((demoS1.remove (TextureId.new 5)).2.remove (TextureId.new 5)).1 = none :=
  c5_absent_handles Textures.new demoS1 (TextureId.new 5) rfl

/-- Claim C7: `insert` and `remove` leave every other handle's binding
unchanged (frame conditions), and the concrete scenario holds: from an
empty registry, `insert(10)` returns handle 0, `insert(20)` returns
handle 1, `remove(0)` returns 10, then `get(0)` is "not found" while
`get(1)` still returns 20. -/
theorem c7_frame_conditions {T : Type} (t : Textures T) (x : T) (idh k : TextureId)
    (hik : k.val ≠ t.next) (hrk : k.val ≠ idh.val) :
    (t.insert x).2.get k = t.get k
      ∧ (t.remove idh).2.get k = t.get k
      ∧ ((Textures.new (T := Nat)).insert 10).1 = TextureId.new 0
      ∧ (demoS1.insert 20).1 = TextureId.new 1
      ∧ (demoS2.remove (TextureId.new 0)).1 = some 10
      ∧ demoS3.get (TextureId.new 0) = none
      ∧ demoS3.get (TextureId.new 1) = some 20 := by
  refine ⟨?_, ?_, by decide, by decide, by decide, by decide, by decide⟩
  · simp [Textures.get, Textures.insert, mapInsert, hik]
  · simp [Textures.get, Textures.remove, mapRemove, hrk]

/-- Claim C7 witness: in the demo registry holding handles 0 and 1,
inserting a new resource (which gets handle 2) and removing handle 0 both
leave the binding of handle 1 untouched; the scenario conjuncts are
closed. -/
theorem c7_frame_conditions_witness :
    (demoS2.insert 30).2.get (TextureId.new 1) = demoS2.get (TextureId.new 1)
      ∧ (demoS2.remove (TextureId.new 0)).2.get (TextureId.new 1)
          = demoS2.get (TextureId.new 1)
      ∧ ((Textures.new (T := Nat)).insert 10).1 = TextureId.new 0
      ∧ (demoS1.insert 20).1 = TextureId.new 1
      ∧ (demoS2.remove (TextureId.new 0)).1 = some 10
      ∧ demoS3.get (TextureId.new 0) = none
      ∧ demoS3.get (TextureId.new 1) = some 20 :=
  c7_frame_conditions demoS2 30 (TextureId.new 0) (TextureId.new 1)
    (by decide) (by decide)

/-- Claim C10: `TextureId::new` and `From<u64>` round-trip with `id()` on
every 64-bit value, and texture ids with equal identifiers are equal
values. -/
theorem c10_textureId_roundtrip (n : Nat) (a b : TextureId)
    (hn : n < 2 ^ 64) (hab : a.id = b.id) :
    (TextureId.new n).id = n ∧ (TextureId.fromU64 n).id = n ∧ a = b := by
  refine ⟨rfl, rfl, ?_⟩
  cases a
  cases b
  simpa [TextureId.id] using hab

/-- Claim C10 witness: the round-trip at 42 and value equality of two
texture ids both built from 7. -/
theorem c10_textureId_roundtrip_witness :
    (TextureId.new 42).id = 42
      ∧ (TextureId.fromU64 42).id = 42
      ∧ TextureId.new 7 = TextureId.fromU64 7 :=
  c10_textureId_roundtrip 42 (TextureId.new 7) (TextureId.fromU64 7)
    (by decide) rfl

/-- Claim C3: whenever the installed handler panics on the given
viewport and data, the trampoline's `catch_unwind` contains the fault,
the diagnostic is written to standard error, and the process is aborted;
the panic never propagates to the native caller. -/
theorem c3_fault_containment (b : ImeBackend) (v : Viewport) (d : PlatformImeData)
    (hp : b v d = PanicOr.panicked) :
    set_ime_data (ImeDataContext.new b) v (some d)
      = TrampolineOutcome.abort imePanicMsg := by
  simp [set_ime_data, ImeDataContext.new, hp]

/-- Claim C3 witness: the always-panicking handler, invoked through the
trampoline on concrete data, yields the abort-with-diagnostic outcome. -/
theorem c3_fault_containment_witness :
    set_ime_data (ImeDataContext.new panickingBackend) demoViewport (some demoImeData)
      = TrampolineOutcome.abort imePanicMsg :=
  c3_fault_containment panickingBackend demoViewport demoImeData rfl

/-- Claim C8: with the dummy IME context installed, the trampoline
returns normally on every viewport and every (valid) data value: the
viewport is unchanged, no handler effect is observed, and the abort path
is not taken. -/
theorem c8_dummy_noop (v : Viewport) (d : PlatformImeData) :
    set_ime_data ImeDataContext.dummy v (some d)
      = TrampolineOutcome.normal v [] :=
  rfl

/-- Claim C9: after a context holding handler `b2` replaces a previously
installed context holding `b1` in the process-wide slot, a trampoline
invocation behaves exactly as if only `b2` had ever been installed
(first conjunct, for arbitrary handlers); with instrumented handlers the
invocation trace contains exactly one event, tagged by the second
handler and carrying the delivered data — the first handler is never
invoked (second conjunct). -/
theorem c9_reinstall_replaces (b1 b2 : ImeBackend) (v : Viewport) (d : PlatformImeData) :
    set_ime_data
        (installContext (ImeDataContext.new b2)
          (installContext (ImeDataContext.new b1) ImeDataContext.dummy)) v (some d)
      = set_ime_data (ImeDataContext.new b2) v (some d)
      ∧ set_ime_data
          (installContext (ImeDataContext.new (taggedBackend 2))
            (installContext (ImeDataContext.new (taggedBackend 1)) ImeDataContext.dummy))
          v (some d)
        = TrampolineOutcome.normal v [(2, d)] :=
  ⟨rfl, rfl⟩

/-- Running `ops` and then further operations is running the
concatenation; specialised to a single leading operation. -/
theorem applyOps_cons {T : Type} (t : Textures T) (op : TexOp T) (ops : List (TexOp T)) :
    applyOps t (op :: ops) = applyOps (applyOp t op) ops :=
  rfl

/-- Unfolding lemma: one step of `insertHandlesAux`. -/
theorem insertHandlesAux_succ {T : Type} (x : T) (n : Nat) (t : Textures T) :
    insertHandlesAux x (n + 1) t
      = (t.insert x).1.id :: insertHandlesAux x n (t.insert x).2 :=
  rfl

/-- Counter value after `n` iterated inserts: the `u64` counter advances
by `n` modulo `2 ^ 64`. -/
theorem iterInsert_next {T : Type} (x : T) :
    ∀ (n : Nat) (t : Textures T), t.next < 2 ^ 64 →
      (iterInsert n x t).next = (t.next + n) % 2 ^ 64
  | 0, t, ht => by
    simp only [iterInsert]
    omega
  | n + 1, t, ht => by
    have hstep : ((t.insert x).2).next = (t.next + 1) % 2 ^ 64 := rfl
    have hlt : ((t.insert x).2).next < 2 ^ 64 := by
      rw [hstep]
      exact Nat.mod_lt _ (by omega)
    have ih := iterInsert_next x n (t.insert x).2 hlt
    calc (iterInsert (n + 1) x t).next
        = (iterInsert n x (t.insert x).2).next := rfl
      _ = (((t.insert x).2).next + n) % 2 ^ 64 := ih
      _ = ((t.next + 1) % 2 ^ 64 + n) % 2 ^ 64 := by rw [hstep]
      _ = (t.next + 1 + n) % 2 ^ 64 := Nat.mod_add_mod _ _ _
      _ = (t.next + (n + 1)) % 2 ^ 64 := by
          rw [Nat.add_assoc, Nat.add_comm 1 n]

/-- Handles issued by `n` iterated inserts, as long as the counter does
not wrap: consecutive values starting at the current counter. -/
theorem insertHandlesAux_eq_range' {T : Type} (x : T) :
    ∀ (n : Nat) (t : Textures T), t.next + n ≤ 2 ^ 64 →
      insertHandlesAux x n t = List.range' t.next n
  | 0, _, _ => by
    simp [insertHandlesAux]
  | 1, t, _ => by
    have hid : ((t.insert x).1).id = t.next := rfl
    rw [insertHandlesAux_succ, hid]
    rfl
  | m + 2, t, hle => by
    have hnowrap : t.next + 1 < 2 ^ 64 := by omega
    have hstep : ((t.insert x).2).next = t.next + 1 := by
      show (t.next + 1) % 2 ^ 64 = t.next + 1
      exact Nat.mod_eq_of_lt hnowrap
    have ih := insertHandlesAux_eq_range' x (m + 1) (t.insert x).2 (by omega)
    rw [insertHandlesAux_succ, List.range'_succ, ih, hstep]
    rfl

/-- Safety invariant of the registry: along a safe call sequence the
counter stays a valid `u64` and every bound key stays strictly below
the counter. -/
theorem safeOps_bounded {T : Type} :
    ∀ (ops : List (TexOp T)) (s : Textures T),
      safeOps s ops = true → s.next < 2 ^ 64 →
      (∀ k, ((s.textures k).isSome = true → k < s.next)) →
      (applyOps s ops).next < 2 ^ 64
        ∧ ∀ k, (((applyOps s ops).textures k).isSome = true
            → k < (applyOps s ops).next)
  | [], s, _, hlt, hinv => ⟨hlt, hinv⟩
  | op :: rest, s, hsafe, hlt, hinv => by
    rw [applyOps_cons]
    cases op with
    | insert x =>
      simp only [safeOps, Bool.and_eq_true, decide_eq_true_eq] at hsafe
      obtain ⟨h1, hrest⟩ := hsafe
      refine safeOps_bounded rest _ hrest ?_ ?_
      · show (s.next + 1) % 2 ^ 64 < 2 ^ 64
        exact Nat.mod_lt _ (by omega)
      · intro k hk
        show k < (s.next + 1) % 2 ^ 64
        rw [Nat.mod_eq_of_lt h1]
        simp only [applyOp, Textures.insert, mapInsert] at hk
        by_cases hks : k = s.next
        · omega
        · simp only [if_neg hks] at hk
          exact Nat.lt_trans (hinv k hk) (by omega)
    | replace h x =>
      simp only [safeOps, Bool.and_eq_true, decide_eq_true_eq] at hsafe
      obtain ⟨h1, hrest⟩ := hsafe
      refine safeOps_bounded rest _ hrest hlt ?_
      intro k hk
      simp only [applyOp, Textures.replace, mapInsert, TextureId.new] at hk ⊢
      by_cases hkh : k = h
      · omega
      · simp only [if_neg hkh] at hk
        exact hinv k hk
    | remove h =>
      simp only [safeOps, Bool.and_eq_true] at hsafe
      obtain ⟨-, hrest⟩ := hsafe
      refine safeOps_bounded rest _ hrest hlt ?_
      intro k hk
      simp only [applyOp, Textures.remove, mapRemove, TextureId.new] at hk ⊢
      by_cases hkh : k = h
      · simp [hkh] at hk
      · simp only [if_neg hkh] at hk
        exact hinv k hk
    | get h =>
      simp only [safeOps, Bool.and_eq_true] at hsafe
      exact safeOps_bounded rest _ hsafe.2 hlt hinv
    | get_mut h =>
      simp only [safeOps, Bool.and_eq_true] at hsafe
      exact safeOps_bounded rest _ hsafe.2 hlt hinv

/-- Claim C1 (amended): along any call sequence from an empty registry in
which every `replace` targets a handle already issued by the counter and
every `insert` happens before the `u64` counter is exhausted, each handle
is bound to at most one live resource, every bound handle lies strictly
below the next-handle counter, and `insert` returns a handle that is not
currently bound. -/
theorem c1_registry_invariant_amended {T : Type} (ops : List (TexOp T)) (k : Nat)
    (x y xNew : T)
    (hs : safeOps Textures.new ops = true)
    (hx : (applyOps (Textures.new (T := T)) ops).textures k = some x)
    (hy : (applyOps (Textures.new (T := T)) ops).textures k = some y) :
    x = y
      ∧ k < (applyOps (Textures.new (T := T)) ops).next
      ∧ (applyOps (Textures.new (T := T)) ops).textures
          (((applyOps (Textures.new (T := T)) ops).insert xNew).1.id) = none := by
  have hbase : (Textures.new (T := T)).next < 2 ^ 64 := by
    show 0 < 2 ^ 64
    omega
  have hempty : ∀ j, (((Textures.new (T := T)).textures j).isSome = true
      → j < (Textures.new (T := T)).next) := by
    intro j hj
    simp [Textures.new] at hj
  have hinv := safeOps_bounded ops Textures.new hs hbase hempty
  refine ⟨?_, ?_, ?_⟩
  · exact Option.some.inj (hx.symm.trans hy)
  · exact hinv.2 k (by rw [hx]; rfl)
  · set s := applyOps (Textures.new (T := T)) ops with hsdef
    show s.textures s.next = none
    cases hcase : s.textures s.next with
    | none => rfl
    | some v =>
      have := hinv.2 s.next (by rw [hcase]; rfl)
      omega

/-- Claim C1 witness: after the single safe operation `insert(5)`, the
bound handle 0 holds one resource, lies below the counter, and a further
insert would return the unbound handle 1. -/
theorem c1_registry_invariant_amended_witness :
    (5 : Nat) = 5
      ∧ 0 < (applyOps (Textures.new (T := Nat)) [TexOp.insert 5]).next
      ∧ (applyOps (Textures.new (T := Nat)) [TexOp.insert 5]).textures
          (((applyOps (Textures.new (T := Nat)) [TexOp.insert 5]).insert 6).1.id)
          = none :=
  c1_registry_invariant_amended [TexOp.insert 5] 0 5 5 6 (by decide) rfl rfl

/-- Claim C1 counterexample, refuting the claim as stated: from an empty
registry, `replace` with the never-issued handle 0 binds it (to 99), yet
the very next `insert` returns that currently bound handle 0 and rebinds
it to the new resource — so `insert` does return a currently bound
handle, and the handle value is reused while resource 99 is still
registered. -/
theorem c1_registry_invariant_counterexample :
    (applyOps (Textures.new (T := Nat)) [TexOp.replace 0 99]).get (TextureId.new 0)
        = some 99
      ∧ ((applyOps (Textures.new (T := Nat)) [TexOp.replace 0 99]).insert 7).1
          = TextureId.new 0
      ∧ ((applyOps (Textures.new (T := Nat)) [TexOp.replace 0 99]).insert 7).2.get
          (TextureId.new 0) = some 7 := by
  decide

/-- Claim C2 (amended): for every sequence of fewer than `2 ^ 64` insert
calls on a registry created by `Textures::new`, the returned handles are
exactly `0, 1, 2, …` in issuance order — hence pairwise distinct,
strictly increasing, and starting at 0 — and each insert advances the
next-handle counter by exactly one (insert itself is total: it always
returns a handle). The bound is forced by the wrapping of the `u64`
counter exhibited in the counterexample. -/
theorem c2_insert_handles_amended (n k : Nat) (hn : n < 2 ^ 64) (hk : k < n) :
    insertHandles n = List.range n
      ∧ (insertHandles n).Nodup
      ∧ (insertHandles n).Pairwise (· < ·)
      ∧ (iterInsert (k + 1) () Textures.new).next
          = (iterInsert k () Textures.new).next + 1 := by
  have h1 : insertHandles n = List.range' 0 n :=
    insertHandlesAux_eq_range' () n Textures.new
      (by show 0 + n ≤ 2 ^ 64; omega)
  have hr : insertHandles n = List.range n := by
    rw [h1, ← List.range_eq_range']
  have hzlt : (Textures.new (T := Unit)).next < 2 ^ 64 := by
    show 0 < 2 ^ 64
    omega
  have hck : (iterInsert k () Textures.new).next = k := by
    rw [iterInsert_next () k Textures.new hzlt]
    show (0 + k) % 2 ^ 64 = k
    rw [Nat.zero_add]
    exact Nat.mod_eq_of_lt (by omega)
  have hck1 : (iterInsert (k + 1) () Textures.new).next = k + 1 := by
    rw [iterInsert_next () (k + 1) Textures.new hzlt]
    show (0 + (k + 1)) % 2 ^ 64 = k + 1
    rw [Nat.zero_add]
    exact Nat.mod_eq_of_lt (by omega)
  refine ⟨hr, ?_, ?_, ?_⟩
  · rw [hr]
    exact List.nodup_range n
  · rw [hr]
    exact List.pairwise_lt_range n
  · rw [hck, hck1]

/-- Claim C2 witness: three inserts from a fresh registry return handles
`[0, 1, 2]` — distinct, increasing, starting at 0 — and the second insert
advances the counter from 1 to 2. -/
theorem c2_insert_handles_amended_witness :
    insertHandles 3 = List.range 3
      ∧ (insertHandles 3).Nodup
      ∧ (insertHandles 3).Pairwise (· < ·)
      ∧ (iterInsert 2 () Textures.new).next = (iterInsert 1 () Textures.new).next + 1 :=
  c2_insert_handles_amended 3 1 (by decide) (by decide)

/-- Claim C2 counterexample, refuting the claim as stated: in a single
run of `2 ^ 64 + 1` inserts from a fresh registry, the `u64` counter has
wrapped back to 0 after the first `2 ^ 64` inserts, so the final insert
returns the very same handle as the first one — the returned handles are
neither pairwise distinct nor strictly increasing, and the wrapping
insert did not advance the counter by one. -/
theorem c2_insert_handles_counterexample :
    (iterInsert (2 ^ 64) () (Textures.new (T := Unit))).next = 0
      ∧ ((iterInsert (2 ^ 64) () (Textures.new (T := Unit))).insert ()).1
          = ((Textures.new (T := Unit)).insert ()).1 := by
  have h : (iterInsert (2 ^ 64) () (Textures.new (T := Unit))).next = 0 := by
    rw [iterInsert_next () (2 ^ 64) Textures.new (by show 0 < 2 ^ 64; omega)]
    show (0 + 2 ^ 64) % 2 ^ 64 = 0
    rw [Nat.zero_add, Nat.mod_self]
  refine ⟨h, ?_⟩
  show TextureId.fromU64 (iterInsert (2 ^ 64) () (Textures.new (T := Unit))).next
      = TextureId.fromU64 (Textures.new (T := Unit)).next
  rw [h]
  rfl

/-- Binding of handle `k` is preserved along any call sequence that
avoids `k` and whose inserts cannot wrap the counter back onto `k`. -/
theorem get_preserved {T : Type} (x : T) (k : Nat) :
    ∀ (ops : List (TexOp T)) (s : Textures T),
      s.textures k = some x →
      avoidsHandle k ops = true →
      (countInserts ops = 0 ∨ (k < s.next ∧ s.next + countInserts ops ≤ 2 ^ 64)) →
      (applyOps s ops).textures k = some x
  | [], _, hx, _, _ => hx
  | op :: rest, s, hx, hav, hc => by
    rw [applyOps_cons]
    cases op with
    | insert y =>
      rcases hc with hc0 | ⟨hks, hsum⟩
      · exact absurd hc0 (by show ¬(countInserts rest + 1 = 0); omega)
      · have hsum' : s.next + (countInserts rest + 1) ≤ 2 ^ 64 := hsum
        have hx' : ((s.insert y).2).textures k = some x := by
          show (if k = s.next then some y else s.textures k) = some x
          rw [if_neg (by omega : ¬k = s.next)]
          exact hx
        have hav' : avoidsHandle k rest = true := by
          simp only [avoidsHandle, Bool.and_eq_true] at hav
          exact hav.2
        refine get_preserved x k rest (s.insert y).2 hx' hav' ?_
        cases hr : countInserts rest with
        | zero => exact Or.inl rfl
        | succ c =>
          right
          rw [hr] at hsum'
          have hnw : s.next + 1 < 2 ^ 64 := by omega
          have hstep : ((s.insert y).2).next = s.next + 1 := by
            show (s.next + 1) % 2 ^ 64 = s.next + 1
            exact Nat.mod_eq_of_lt hnw
          rw [hstep]
          exact ⟨by omega, by omega⟩
    | replace h y =>
      simp only [avoidsHandle, Bool.and_eq_true, decide_eq_true_eq] at hav
      obtain ⟨hne, hav'⟩ := hav
      have hx' : ((s.replace (TextureId.new h) y).2).textures k = some x := by
        show (if k = h then some y else s.textures k) = some x
        rw [if_neg (Ne.symm hne)]
        exact hx
      exact get_preserved x k rest _ hx' hav' hc
    | remove h =>
      simp only [avoidsHandle, Bool.and_eq_true, decide_eq_true_eq] at hav
      obtain ⟨hne, hav'⟩ := hav
      have hx' : ((s.remove (TextureId.new h)).2).textures k = some x := by
        show (if k = h then none else s.textures k) = some x
        rw [if_neg (Ne.symm hne)]
        exact hx
      exact get_preserved x k rest _ hx' hav' hc
    | get h =>
      simp only [avoidsHandle, Bool.and_eq_true] at hav
      exact get_preserved x k rest s hx hav.2 hc
    | get_mut h =>
      simp only [avoidsHandle, Bool.and_eq_true] at hav
      exact get_preserved x k rest s hx hav.2 hc

/-- On a registry whose counter has wrapped back to 0, the next insert
rebinds handle 0. -/
theorem insert_rebinds_zero {T : Type} (s : Textures T) (y : T) (h0 : s.next = 0) :
    (s.insert y).2.get (TextureId.new 0) = some y := by
  show (if (TextureId.new 0).val = s.next then some y
      else s.textures (TextureId.new 0).val) = some y
  rw [h0]
  rfl

/-- Claim C6 (amended): after `insert(x)` returns handle `h`, `get(h)`
returns `x` after any further sequence of operations that contains no
`remove(h)`, no `replace(h, _)`, and whose inserts cannot wrap the `u64`
counter back onto `h` (no inserts at all, or counter + 1 + #inserts stays
within `2 ^ 64`). The extra wrap condition is forced by the
counterexample. -/
theorem c6_insert_stable_amended {T : Type} (t : Textures T) (x : T)
    (ops : List (TexOp T))
    (hav : avoidsHandle t.next ops = true)
    (hc : countInserts ops = 0 ∨ t.next + 1 + countInserts ops ≤ 2 ^ 64) :
    (applyOps (t.insert x).2 ops).get (t.insert x).1 = some x := by
  show (applyOps (t.insert x).2 ops).textures t.next = some x
  refine get_preserved x t.next ops (t.insert x).2 ?_ hav ?_
  · show (if t.next = t.next then some x else t.textures t.next) = some x
    rw [if_pos rfl]
  · rcases hc with h0 | hsum
    · exact Or.inl h0
    · cases hr : countInserts ops with
      | zero => exact Or.inl rfl
      | succ c =>
        right
        rw [hr] at hsum
        have hnw : t.next + 1 < 2 ^ 64 := by omega
        have hstep : ((t.insert x).2).next = t.next + 1 := by
          show (t.next + 1) % 2 ^ 64 = t.next + 1
          exact Nat.mod_eq_of_lt hnw
        rw [hstep]
        exact ⟨by omega, by omega⟩

/-- Claim C6 witness: insert 77 into the demo registry (getting handle
1), then insert 88, remove handle 0 and look up handle 3 — none of which
touches handle 1 — and `get(1)` still returns 77. -/
theorem c6_insert_stable_amended_witness :
    (applyOps (demoS1.insert 77).2 [TexOp.insert 88, TexOp.remove 0, TexOp.get 3]).get
        (demoS1.insert 77).1 = some 77 :=
  c6_insert_stable_amended demoS1 77 [TexOp.insert 88, TexOp.remove 0, TexOp.get 3]
    (by decide) (by decide)

/-- Claim C6 counterexample, refuting the claim as stated: `insert(99)`
on a fresh registry returns handle 0; a further sequence consisting only
of inserts (no `remove(0)`, no `replace(0, _)`) wraps the `u64` counter
back to 0, and the wrapping insert rebinds handle 0 — afterwards `get(0)`
returns the new resource 7 instead of 99. -/
theorem c6_insert_stable_counterexample :
    ((Textures.new (T := Nat)).insert 99).1 = TextureId.new 0
      ∧ ((iterInsert (2 ^ 64 - 1) 0 ((Textures.new (T := Nat)).insert 99).2).insert 7).2.get
          (TextureId.new 0) = some 7
      ∧ (7 : Nat) ≠ 99 := by
  have hs0 : (((Textures.new (T := Nat)).insert 99).2).next = 1 := rfl
  have h1 := iterInsert_next (T := Nat) 0 (2 ^ 64 - 1)
    ((Textures.new (T := Nat)).insert 99).2 (by rw [hs0]; omega)
  rw [hs0] at h1
  have h2 : (1 + (2 ^ 64 - 1)) % 2 ^ 64 = 0 := by
    have h3 : 1 + (2 ^ 64 - 1) = 2 ^ 64 := by omega
    rw [h3, Nat.mod_self]
  rw [h2] at h1
  exact ⟨rfl, insert_rebinds_zero _ 7 h1, by omega⟩
